import Mathlib

/-!
Verification of the `Watchdog` driver (`src/Watchdog/Watchdog.cpp`), the
`ST_NUCLEO` branch that the source compiles (`#define ST_NUCLEO`; `LPC` is
commented out).  The `float` timeout and its arithmetic are modelled exactly
over `ℚ`; the C integer divisions and casts are modelled by `Nat` division,
`Int.floor` and explicit `% 2 ^ w` reductions.
-/

namespace Watchdog

/-- The LSI oscillator frequency in Hz: `#define LsiFreq (45000)` in the source. -/
def LsiFreq : ℕ := 45000

/-- The quantity `counts p t` models the C expression `timeout * (LsiFreq/p)`:
`LsiFreq/p` is C integer division of integers (so `45000/16 = 2812`, not
`2812.5`), and the product with the timeout is exact over `ℚ`. -/
def counts (p : ℕ) (t : ℚ) : ℚ := t * ((LsiFreq / p : ℕ) : ℚ)

/-- The prescaler selected by the if-chain of `Watchdog::Configure`
(source lines 174-201): prescalers are tried in ascending order
4, 8, 16, 32, 64, 128; the first bound is `0x7FF`, all later bounds are
`0xFF0`, each a strict `<`; if none holds, 256 is taken with no check. -/
def Prescaler (t : ℚ) : ℕ :=
  if counts 4 t < 0x7FF then 4
  else if counts 8 t < 0xFF0 then 8
  else if counts 16 t < 0xFF0 then 16
  else if counts 32 t < 0xFF0 then 32
  else if counts 64 t < 0xFF0 then 64
  else if counts 128 t < 0xFF0 then 128
  else 256

/-- Modelled from the spec: the HAL selector constants `IWDG_PRESCALER_4` ..
`IWDG_PRESCALER_256` written to `IWDG->PR` are external to `src/`; the spec
says each prescaler "maps to a distinct hardware-encoded selector", so they
are modelled as the standard STM32 encodings 0..6. -/
def PrescalerCode (p : ℕ) : ℕ :=
  if p = 4 then 0
  else if p = 8 then 1
  else if p = 16 then 2
  else if p = 32 then 3
  else if p = 64 then 4
  else if p = 128 then 5
  else 6

/-- Source line 204: `ReloadValue = (uint32_t)(timeout * (LsiFreq/Prescaler));`.
The C cast of a nonnegative `float` to `uint32_t` truncates toward zero
(= `Int.floor` for nonnegative values) and reduces mod `2 ^ 32`; the
assignment into the `uint16_t` variable `ReloadValue` reduces mod `2 ^ 16`.
No clamping to `0x0FFF` appears in the source. -/
def ReloadValue (t : ℚ) : ℕ :=
  ((Int.toNat ⌊counts (Prescaler t) t⌋) % 2 ^ 32) % 2 ^ 16

/-- Source line 206: `Calculated_timeout = ((float)(Prescaler * ReloadValue)) / LsiFreq;`,
the actual achievable timeout reported by the driver. -/
def Calculated_timeout (t : ℚ) : ℚ :=
  ((Prescaler t * ReloadValue t : ℕ) : ℚ) / (LsiFreq : ℚ)

/-- The three IWDG registers written by the source. -/
inductive Reg
  | KR
  | PR
  | RLR
deriving DecidableEq

/-- Source line 227: `Service()` writes the single kick pattern `IWDG->KR = 0xAAAA`. -/
def ServiceWrites : List (Reg × ℕ) := [(Reg.KR, 0xAAAA)]

/-- The register writes issued by one `Configure(t)` call, source lines 209-216:
unlock (`KR = 0x5555`), prescaler selector, reload value, reload (`KR = 0xAAAA`),
start (`KR = 0xCCCC`), then the trailing `Service()` call. -/
def ConfigureWrites (t : ℚ) : List (Reg × ℕ) :=
  [(Reg.KR, 0x5555), (Reg.PR, PrescalerCode (Prescaler t)),
   (Reg.RLR, ReloadValue t), (Reg.KR, 0xAAAA), (Reg.KR, 0xCCCC)] ++ ServiceWrites

/-- The observable state of one driver instance: the `wdreset` member of the
C++ class, and the latched contents of the `PR` and `RLR` hardware registers. -/
structure DriverState where
  wdreset : Bool
  pr : ℕ
  rlr : ℕ
deriving DecidableEq

/-- Effect of one register write on the latched state: `KR` is a key/command
register (writes to it do not latch a value), `PR` and `RLR` latch. -/
def applyWrite (s : DriverState) (w : Reg × ℕ) : DriverState :=
  match w.1 with
  | Reg.KR => s
  | Reg.PR => { s with pr := w.2 }
  | Reg.RLR => { s with rlr := w.2 }

def runWrites (s : DriverState) (ws : List (Reg × ℕ)) : DriverState :=
  ws.foldl applyWrite s

/-- Constructor `Watchdog::Watchdog()` with `ST_NUCLEO` defined (source lines 135-154):
the read of the hardware reset-cause flag `RCC_FLAG_IWDGRST` is commented out
in the source, and the constructor assigns `wdreset = false` unconditionally.
`iwdgrstFlag` is the hardware status bit the commented-out read would have
captured; `pr0`, `rlr0` are the pre-existing hardware register contents. -/
def construct (iwdgrstFlag : Bool) (pr0 rlr0 : ℕ) : DriverState :=
  { wdreset := false, pr := pr0, rlr := rlr0 }

/-- Model of `Watchdog::Configure(timeout)`: issue the configuration write sequence. -/
def Configure (t : ℚ) (s : DriverState) : DriverState :=
  runWrites s (ConfigureWrites t)

/-- Model of `Watchdog::Service()`: issue the kick pattern. -/
def Service (s : DriverState) : DriverState :=
  runWrites s ServiceWrites

/-- Model of `Watchdog::WatchdogCausedReset()` (source lines 232-234): `return wdreset;`. -/
def WatchdogCausedReset (s : DriverState) : Bool := s.wdreset

/-- A call made by a client of the driver after construction. -/
inductive Op
  | configureOp (t : ℚ)
  | serviceOp

def runOp (s : DriverState) (o : Op) : DriverState :=
  match o with
  | Op.configureOp t => Configure t s
  | Op.serviceOp => Service s

def runOps (s : DriverState) (l : List Op) : DriverState := l.foldl runOp s

/-- The ordered prescaler set of the spec. -/
def prescalerSet : List ℕ := [4, 8, 16, 32, 64, 128, 256]

/-- The bound the spec assigns to each candidate: `0x7FF` for the first
candidate (4), `0xFF0` for every later one. -/
def bound (p : ℕ) : ℚ := if p = 4 then 0x7FF else 0xFF0

/-- The acceptance condition of the spec: `counts` strictly below the bound. -/
def boundOk (p : ℕ) (t : ℚ) : Prop := counts p t < bound p

instance (p : ℕ) (t : ℚ) : Decidable (boundOk p t) := by
  unfold boundOk; infer_instance

/-! ### Helper lemmas shared by the claim theorems -/

theorem prescaler_mem (t : ℚ) : Prescaler t ∈ prescalerSet := by
  unfold Prescaler prescalerSet
  split_ifs <;> simp

theorem prescaler_pos (t : ℚ) : 0 < Prescaler t := by
  unfold Prescaler
  split_ifs <;> norm_num

theorem prescaler_counts_lt (t : ℚ) (h : Prescaler t ≠ 256) :
    counts (Prescaler t) t < 0xFF0 := by
  by_cases h4 : counts 4 t < 0x7FF
  · have hp : Prescaler t = 4 := by simp [Prescaler, h4]
    rw [hp]
    exact lt_trans h4 (by norm_num)
  by_cases h8 : counts 8 t < 0xFF0
  · have hp : Prescaler t = 8 := by simp [Prescaler, h4, h8]
    rw [hp]; exact h8
  by_cases h16 : counts 16 t < 0xFF0
  · have hp : Prescaler t = 16 := by simp [Prescaler, h4, h8, h16]
    rw [hp]; exact h16
  by_cases h32 : counts 32 t < 0xFF0
  · have hp : Prescaler t = 32 := by simp [Prescaler, h4, h8, h16, h32]
    rw [hp]; exact h32
  by_cases h64 : counts 64 t < 0xFF0
  · have hp : Prescaler t = 64 := by simp [Prescaler, h4, h8, h16, h32, h64]
    rw [hp]; exact h64
  by_cases h128 : counts 128 t < 0xFF0
  · have hp : Prescaler t = 128 := by simp [Prescaler, h4, h8, h16, h32, h64, h128]
    rw [hp]; exact h128
  · have hp : Prescaler t = 256 := by simp [Prescaler, h4, h8, h16, h32, h64, h128]
    exact absurd hp h

theorem counts_nonneg (p : ℕ) (t : ℚ) (ht : 0 ≤ t) : 0 ≤ counts p t := by
  unfold counts
  positivity

theorem reload_floor (t : ℚ) (ht : 0 < t) (h : Prescaler t ≠ 256) :
    (ReloadValue t : ℤ) = ⌊counts (Prescaler t) t⌋ ∧ ReloadValue t < 0xFF0 := by
  have hlt := prescaler_counts_lt t h
  have hc : 0 ≤ counts (Prescaler t) t := counts_nonneg _ _ (le_of_lt ht)
  have hfl0 : 0 ≤ ⌊counts (Prescaler t) t⌋ := Int.floor_nonneg.mpr hc
  have hflu : ⌊counts (Prescaler t) t⌋ < 0xFF0 := by
    have hle := Int.floor_le (counts (Prescaler t) t)
    exact_mod_cast lt_of_le_of_lt hle hlt
  have htn : Int.toNat ⌊counts (Prescaler t) t⌋ < 0xFF0 := by omega
  have hr : ReloadValue t = Int.toNat ⌊counts (Prescaler t) t⌋ := by
    unfold ReloadValue
    rw [Nat.mod_eq_of_lt (lt_trans htn (by norm_num)),
      Nat.mod_eq_of_lt (lt_trans htn (by norm_num))]
  constructor
  · rw [hr]
    exact Int.toNat_of_nonneg hfl0
  · rw [hr]; exact htn

/-! ### Claim theorems -/

/-- C1: for every positive timeout for which at least one prescaler bound is
satisfied, `Configure` chooses the smallest prescaler in the ordered set
{4, 8, 16, 32, 64, 128, 256} whose bound holds; the first candidate is tested
against the tighter bound `0x7FF` and every later candidate against `0xFF0`,
each comparison a strict less-than on `timeout * (LsiFreq / p)`. -/
theorem Prescaler_smallest_satisfying (t : ℚ) (ht : 0 < t)
    (hex : ∃ p ∈ prescalerSet, boundOk p t) :
    Prescaler t ∈ prescalerSet ∧ boundOk (Prescaler t) t ∧
      ∀ p ∈ prescalerSet, boundOk p t → Prescaler t ≤ p := by
  by_cases h4 : counts 4 t < 0x7FF
  · have hp : Prescaler t = 4 := by simp [Prescaler, h4]
    refine ⟨by rw [hp]; simp [prescalerSet], by rw [hp]; simpa [boundOk, bound] using h4, ?_⟩
    intro p hmem _
    rw [hp]
    fin_cases hmem <;> norm_num
  by_cases h8 : counts 8 t < 0xFF0
  · have hp : Prescaler t = 8 := by simp [Prescaler, h4, h8]
    refine ⟨by rw [hp]; simp [prescalerSet], by rw [hp]; simpa [boundOk, bound] using h8, ?_⟩
    intro p hmem hb
    rw [hp]
    fin_cases hmem <;> simp_all [boundOk, bound] <;> linarith
  by_cases h16 : counts 16 t < 0xFF0
  · have hp : Prescaler t = 16 := by simp [Prescaler, h4, h8, h16]
    refine ⟨by rw [hp]; simp [prescalerSet], by rw [hp]; simpa [boundOk, bound] using h16, ?_⟩
    intro p hmem hb
    rw [hp]
    fin_cases hmem <;> simp_all [boundOk, bound] <;> linarith
  by_cases h32 : counts 32 t < 0xFF0
  · have hp : Prescaler t = 32 := by simp [Prescaler, h4, h8, h16, h32]
    refine ⟨by rw [hp]; simp [prescalerSet], by rw [hp]; simpa [boundOk, bound] using h32, ?_⟩
    intro p hmem hb
    rw [hp]
    fin_cases hmem <;> simp_all [boundOk, bound] <;> linarith
  by_cases h64 : counts 64 t < 0xFF0
  · have hp : Prescaler t = 64 := by simp [Prescaler, h4, h8, h16, h32, h64]
    refine ⟨by rw [hp]; simp [prescalerSet], by rw [hp]; simpa [boundOk, bound] using h64, ?_⟩
    intro p hmem hb
    rw [hp]
    fin_cases hmem <;> simp_all [boundOk, bound] <;> linarith
  by_cases h128 : counts 128 t < 0xFF0
  · have hp : Prescaler t = 128 := by simp [Prescaler, h4, h8, h16, h32, h64, h128]
    refine ⟨by rw [hp]; simp [prescalerSet], by rw [hp]; simpa [boundOk, bound] using h128, ?_⟩
    intro p hmem hb
    rw [hp]
    fin_cases hmem <;> simp_all [boundOk, bound] <;> linarith
  · have hp : Prescaler t = 256 := by simp [Prescaler, h4, h8, h16, h32, h64, h128]
    have h256 : boundOk 256 t := by
      obtain ⟨p, hmem, hb⟩ := hex
      fin_cases hmem <;> simp_all [boundOk, bound] <;> linarith
    refine ⟨by rw [hp]; simp [prescalerSet], by rw [hp]; exact h256, ?_⟩
    intro p hmem hb
    rw [hp]
    fin_cases hmem <;> simp_all [boundOk, bound] <;> linarith

/-- Witness for C1 at the concrete timeout 1/20 s (the spec's 0.05 s scenario). -/
theorem Prescaler_smallest_satisfying_witness :
    Prescaler (1/20) ∈ prescalerSet ∧ boundOk (Prescaler (1/20)) (1/20) ∧
      ∀ p ∈ prescalerSet, boundOk p (1/20) → Prescaler (1/20) ≤ p :=
  Prescaler_smallest_satisfying (1/20) (by norm_num)
    ⟨4, by simp [prescalerSet], by norm_num [boundOk, bound, counts, LsiFreq]⟩

/-- C6: with the 45000 Hz base clock, `Configure(1.0)` computes counts 11250 for
prescaler 4 (not below `0x7FF` = 2047) and 5625 for prescaler 8 (not below
`0xFF0` = 4080), accepts prescaler 16, and produces reload value 2812. -/
theorem configure_one_second_example :
    counts 4 1 = 11250 ∧ ¬ counts 4 1 < 0x7FF ∧
      counts 8 1 = 5625 ∧ ¬ counts 8 1 < 0xFF0 ∧
      counts 16 1 < 0xFF0 ∧ Prescaler 1 = 16 ∧ ReloadValue 1 = 2812 := by
  norm_num [Prescaler, ReloadValue, counts, LsiFreq]; decide

/-- C2 counterexample: `Configure(100)` falls back to prescaler 256 and writes
reload value 17500 to the reload register, above the 12-bit maximum
`0x0FFF` = 4095: no clamping into [0, 0x0FFF] exists in the source. -/
theorem ReloadValue_clamp_counterexample :
    Prescaler 100 = 256 ∧ ReloadValue 100 = 17500 ∧ 0x0FFF < ReloadValue 100 := by
  norm_num [Prescaler, ReloadValue, counts, LsiFreq]
  all_goals decide

/-- C2 amended: for every positive timeout, when `Configure` does not hit the
256 fallback the programmed reload equals the truncation of
`timeout * (LsiFreq/p)` and lies in [0, 0x0FFF]; in the fallback case the
truncation is written reduced mod `2 ^ 16` with no clamp to 0x0FFF, so values
above the 12-bit width can be programmed. -/
theorem ReloadValue_range_amended (t : ℚ) (ht : 0 < t) :
    (Prescaler t ≠ 256 →
        (ReloadValue t : ℤ) = ⌊counts (Prescaler t) t⌋ ∧ ReloadValue t ≤ 0x0FFF) ∧
      (Prescaler t = 256 →
        ReloadValue t = (Int.toNat ⌊counts 256 t⌋) % 2 ^ 16) := by
  constructor
  · intro h
    obtain ⟨h1, h2⟩ := reload_floor t ht h
    exact ⟨h1, by omega⟩
  · intro h
    unfold ReloadValue
    rw [h]
    exact Nat.mod_mod_of_dvd _ (pow_dvd_pow 2 (by norm_num))

/-- Witness for C2 amended at the concrete timeout 1 s. -/
theorem ReloadValue_range_amended_witness :
    (Prescaler 1 ≠ 256 →
        (ReloadValue 1 : ℤ) = ⌊counts (Prescaler 1) 1⌋ ∧ ReloadValue 1 ≤ 0x0FFF) ∧
      (Prescaler 1 = 256 →
        ReloadValue 1 = (Int.toNat ⌊counts 256 1⌋) % 2 ^ 16) :=
  ReloadValue_range_amended 1 (by norm_num)

/-- C3 (code bug): constructing the driver when the hardware reset-cause flag
is set (the previous reset WAS caused by the watchdog) still stores
`wdreset = false`, because the flag read is commented out in the source; so
`WatchdogCausedReset()` returns `false`, not the captured hardware bit. -/
theorem constructor_ignores_reset_flag :
    WatchdogCausedReset (construct true 0 0) = false := rfl

/-- C4: when no prescaler in {4, ..., 128} satisfies its bound, `Configure`
falls back to prescaler 256 without any bound check and still issues the
full hardware programming sequence (clamp rather than reject); there is no
failure path. -/
theorem fallback_largest_prescaler (t : ℚ) (ht : 0 < t)
    (hfail : ∀ p ∈ [4, 8, 16, 32, 64, 128], ¬ boundOk p t) :
    Prescaler t = 256 ∧
      ConfigureWrites t =
        [(Reg.KR, 0x5555), (Reg.PR, PrescalerCode 256), (Reg.RLR, ReloadValue t),
         (Reg.KR, 0xAAAA), (Reg.KR, 0xCCCC), (Reg.KR, 0xAAAA)] := by
  have h4 : ¬ counts 4 t < 0x7FF := by simpa [boundOk, bound] using hfail 4 (by simp)
  have h8 : ¬ counts 8 t < 0xFF0 := by simpa [boundOk, bound] using hfail 8 (by simp)
  have h16 : ¬ counts 16 t < 0xFF0 := by simpa [boundOk, bound] using hfail 16 (by simp)
  have h32 : ¬ counts 32 t < 0xFF0 := by simpa [boundOk, bound] using hfail 32 (by simp)
  have h64 : ¬ counts 64 t < 0xFF0 := by simpa [boundOk, bound] using hfail 64 (by simp)
  have h128 : ¬ counts 128 t < 0xFF0 := by simpa [boundOk, bound] using hfail 128 (by simp)
  have hp : Prescaler t = 256 := by
    unfold Prescaler
    rw [if_neg h4, if_neg h8, if_neg h16, if_neg h32, if_neg h64, if_neg h128]
  exact ⟨hp, by simp [ConfigureWrites, ServiceWrites, hp]⟩

/-- Witness for C4 at the concrete timeout 100 s, where every bound fails. -/
theorem fallback_largest_prescaler_witness :
    Prescaler 100 = 256 ∧
      ConfigureWrites 100 =
        [(Reg.KR, 0x5555), (Reg.PR, PrescalerCode 256), (Reg.RLR, ReloadValue 100),
         (Reg.KR, 0xAAAA), (Reg.KR, 0xCCCC), (Reg.KR, 0xAAAA)] :=
  fallback_largest_prescaler 100 (by norm_num)
    (by intro p hp; fin_cases hp <;> norm_num [boundOk, bound, counts, LsiFreq])

/-- C5 counterexample: at timeout 11 s the chosen prescaler is 128, the
achievable timeout is 494208/45000 ≈ 10.982 s, and the shortfall exceeds one
prescaler tick (128/45000 s) and even two ticks (256/45000 s): the stated
lower bound fails because `LsiFreq/p` is integer division. -/
theorem achievable_one_tick_counterexample :
    Prescaler 11 = 128 ∧
      Calculated_timeout 11 < 11 - (128 : ℚ) / (LsiFreq : ℚ) ∧
      Calculated_timeout 11 < 11 - (256 : ℚ) / (LsiFreq : ℚ) := by
  have hP : Prescaler 11 = 128 := by norm_num [Prescaler, counts, LsiFreq]
  have hR : ReloadValue 11 = 3861 := by
    norm_num [ReloadValue, Prescaler, counts, LsiFreq]
    decide
  refine ⟨hP, ?_, ?_⟩ <;>
  · unfold Calculated_timeout
    rw [hP, hR]
    norm_num [LsiFreq]

/-- C5 amended: for realizable positive timeouts (no fallback), the achievable
timeout never exceeds the request, and the shortfall is below
`(t * (LsiFreq mod p) + p) / LsiFreq`: one prescaled tick plus the loss that
the integer division `LsiFreq/p` introduces. -/
theorem achievable_timeout_bounds (t : ℚ) (ht : 0 < t) (hnf : Prescaler t ≠ 256) :
    Calculated_timeout t ≤ t ∧
      t - Calculated_timeout t <
        (t * ((LsiFreq % Prescaler t : ℕ) : ℚ) + ((Prescaler t : ℕ) : ℚ)) /
          (LsiFreq : ℚ) := by
  obtain ⟨hfl, _⟩ := reload_floor t ht hnf
  have hA : (0 : ℚ) < (LsiFreq : ℚ) := by norm_num [LsiFreq]
  have hppos : (0 : ℚ) < ((Prescaler t : ℕ) : ℚ) := by
    exact_mod_cast prescaler_pos t
  have hr0 : (0 : ℚ) ≤ ((LsiFreq % Prescaler t : ℕ) : ℚ) := Nat.cast_nonneg _
  have hRle : ((ReloadValue t : ℕ) : ℚ) ≤ counts (Prescaler t) t := by
    have hle := Int.floor_le (counts (Prescaler t) t)
    rw [← hfl] at hle
    exact_mod_cast hle
  have hRgt : counts (Prescaler t) t - 1 < ((ReloadValue t : ℕ) : ℚ) := by
    have hgt := Int.sub_one_lt_floor (counts (Prescaler t) t)
    rw [← hfl] at hgt
    exact_mod_cast hgt
  have hpq : ((Prescaler t : ℕ) : ℚ) * ((LsiFreq / Prescaler t : ℕ) : ℚ) +
      ((LsiFreq % Prescaler t : ℕ) : ℚ) = (LsiFreq : ℚ) := by
    exact_mod_cast congrArg (Nat.cast : ℕ → ℚ) (Nat.div_add_mod LsiFreq (Prescaler t))
  have hcounts : counts (Prescaler t) t = t * ((LsiFreq / Prescaler t : ℕ) : ℚ) := rfl
  have hCt : Calculated_timeout t =
      ((Prescaler t : ℕ) : ℚ) * ((ReloadValue t : ℕ) : ℚ) / (LsiFreq : ℚ) := by
    unfold Calculated_timeout
    push_cast
    ring
  constructor
  · rw [hCt, div_le_iff hA]
    nlinarith [mul_le_mul_of_nonneg_left hRle hppos.le, mul_nonneg ht.le hr0, hpq]
  · rw [hCt, sub_lt_iff_lt_add, div_add_div_same, lt_div_iff hA]
    nlinarith [mul_lt_mul_of_pos_left hRgt hppos, hpq, mul_nonneg ht.le hr0]

/-- Witness for C5 amended at the concrete timeout 1 s. -/
theorem achievable_timeout_bounds_witness :
    Calculated_timeout 1 ≤ 1 ∧
      1 - Calculated_timeout 1 <
        (1 * ((LsiFreq % Prescaler 1 : ℕ) : ℚ) + ((Prescaler 1 : ℕ) : ℚ)) /
          (LsiFreq : ℚ) :=
  achievable_timeout_bounds 1 (by norm_num) (by norm_num [Prescaler, counts, LsiFreq])

/-- C7 counterexample: the timeouts 4079/5625 < 4080/5625 straddle the
prescaler-8/16 boundary and are both realizable, yet the prescaler × reload
product drops from 8 × 4079 = 32632 to 16 × 2039 = 32624. -/
theorem product_monotone_counterexample :
    (4079 / 5625 : ℚ) < 4080 / 5625 ∧
      Prescaler (4079 / 5625 : ℚ) = 8 ∧ Prescaler (4080 / 5625 : ℚ) = 16 ∧
      Prescaler (4079 / 5625 : ℚ) * ReloadValue (4079 / 5625 : ℚ) = 32632 ∧
      Prescaler (4080 / 5625 : ℚ) * ReloadValue (4080 / 5625 : ℚ) = 32624 ∧
      ¬ Prescaler (4079 / 5625 : ℚ) * ReloadValue (4079 / 5625 : ℚ) ≤
          Prescaler (4080 / 5625 : ℚ) * ReloadValue (4080 / 5625 : ℚ) := by
  have hP1 : Prescaler (4079 / 5625 : ℚ) = 8 := by norm_num [Prescaler, counts, LsiFreq]
  have hP2 : Prescaler (4080 / 5625 : ℚ) = 16 := by norm_num [Prescaler, counts, LsiFreq]
  have hR1 : ReloadValue (4079 / 5625 : ℚ) = 4079 := by
    norm_num [ReloadValue, Prescaler, counts, LsiFreq]
    decide
  have hR2 : ReloadValue (4080 / 5625 : ℚ) = 2039 := by
    norm_num [ReloadValue, Prescaler, counts, LsiFreq]
    decide
  refine ⟨by norm_num, hP1, hP2, ?_, ?_, ?_⟩ <;> simp [hP1, hP2, hR1, hR2]

/-- C7 amended: the prescaler × reload product is monotone between timeouts
that select the same non-fallback prescaler; across a prescaler boundary it
can decrease (see the counterexample) because `LsiFreq/p` is integer division. -/
theorem product_monotone_same_prescaler (t1 t2 : ℚ) (h1 : 0 < t1) (h12 : t1 ≤ t2)
    (hp : Prescaler t1 = Prescaler t2) (hnf : Prescaler t1 ≠ 256) :
    Prescaler t1 * ReloadValue t1 ≤ Prescaler t2 * ReloadValue t2 := by
  have h2 : (0 : ℚ) < t2 := lt_of_lt_of_le h1 h12
  obtain ⟨hf1, _⟩ := reload_floor t1 h1 hnf
  obtain ⟨hf2, _⟩ := reload_floor t2 h2 (hp ▸ hnf)
  have hcm : counts (Prescaler t1) t1 ≤ counts (Prescaler t1) t2 := by
    unfold counts
    exact mul_le_mul_of_nonneg_right h12 (Nat.cast_nonneg _)
  have hfl : ⌊counts (Prescaler t1) t1⌋ ≤ ⌊counts (Prescaler t2) t2⌋ := by
    rw [← hp]
    exact Int.floor_le_floor hcm
  have hRn : ReloadValue t1 ≤ ReloadValue t2 := by
    have hR : (ReloadValue t1 : ℤ) ≤ (ReloadValue t2 : ℤ) := by
      rw [hf1, hf2]; exact hfl
    exact_mod_cast hR
  rw [hp]
  exact Nat.mul_le_mul (le_refl _) hRn

/-- Witness for C7 amended at the concrete timeouts 1 s and 5/4 s, which both
select prescaler 16. -/
theorem product_monotone_same_prescaler_witness :
    Prescaler 1 * ReloadValue 1 ≤ Prescaler (5/4) * ReloadValue (5/4) :=
  product_monotone_same_prescaler 1 (5/4) (by norm_num) (by norm_num)
    (by norm_num [Prescaler, counts, LsiFreq])
    (by norm_num [Prescaler, counts, LsiFreq])

/-- C8: the `Configure` computation depends only on its argument, not on prior
driver state: a repeated `Configure(t)` leaves the state fixed, the latched
selector and reload always being those computed from `t` alone, and the write
sequence issued is the same list on both calls. -/
theorem Configure_idempotent (t : ℚ) (s : DriverState) :
    Configure t (Configure t s) = Configure t s ∧
      (Configure t s).pr = PrescalerCode (Prescaler t) ∧
      (Configure t s).rlr = ReloadValue t := by
  refine ⟨?_, ?_, ?_⟩ <;>
    simp [Configure, runWrites, ConfigureWrites, ServiceWrites, applyWrite]

/-- C9 counterexample: `Configure(-1)` is not rejected: the source contains no
validation, the prescaler-4 bound check passes (counts = -11250 < 0x7FF), and
hardware registers are written. -/
theorem negative_timeout_not_rejected :
    Prescaler (-1) = 4 ∧ ConfigureWrites (-1) ≠ [] := by
  constructor
  · norm_num [Prescaler, counts, LsiFreq]
  · simp [ConfigureWrites]

/-- C9 amended: `Configure` performs no timeout validation: every non-positive
timeout passes the prescaler-4 bound check and the full six-write hardware
sequence is issued; no error is ever reported. -/
theorem nonpositive_timeout_programs_hardware (t : ℚ) (h : t ≤ 0) :
    Prescaler t = 4 ∧ (ConfigureWrites t).length = 6 := by
  have hc : counts 4 t < 0x7FF := by
    have h0 : counts 4 t ≤ 0 := by
      unfold counts
      exact mul_nonpos_iff.mpr (Or.inr ⟨h, Nat.cast_nonneg _⟩)
    linarith
  constructor
  · unfold Prescaler
    rw [if_pos hc]
  · simp [ConfigureWrites, ServiceWrites]

/-- Witness for C9 amended at the concrete timeout -1 s. -/
theorem nonpositive_timeout_programs_hardware_witness :
    Prescaler (-1) = 4 ∧ (ConfigureWrites (-1)).length = 6 :=
  nonpositive_timeout_programs_hardware (-1) (by norm_num)

theorem applyWrite_wdreset (s : DriverState) (w : Reg × ℕ) :
    (applyWrite s w).wdreset = s.wdreset := by
  rcases w with ⟨r, v⟩
  cases r <;> rfl

theorem runWrites_wdreset (ws : List (Reg × ℕ)) (s : DriverState) :
    (runWrites s ws).wdreset = s.wdreset := by
  induction ws generalizing s with
  | nil => rfl
  | cons w ws ih =>
    show (runWrites (applyWrite s w) ws).wdreset = s.wdreset
    rw [ih, applyWrite_wdreset]

theorem runOp_wdreset (s : DriverState) (o : Op) :
    (runOp s o).wdreset = s.wdreset := by
  cases o with
  | configureOp t => exact runWrites_wdreset _ s
  | serviceOp => exact runWrites_wdreset _ s

theorem runOps_wdreset (ops : List Op) (s : DriverState) :
    (runOps s ops).wdreset = s.wdreset := by
  induction ops generalizing s with
  | nil => rfl
  | cons o ops ih =>
    show (runOps (runOp s o) ops).wdreset = s.wdreset
    rw [ih, runOp_wdreset]

/-- C10: no sequence of `Configure`/`Service` calls changes the reset-cause
boolean captured at construction, so `WatchdogCausedReset` is constant over
the instance lifetime; `Service` leaves the programmed prescaler and reload
registers unchanged, and two consecutive `Service` calls issue the identical
kick pattern `KR = 0xAAAA` and commute to a single state change. -/
theorem service_frame_properties (s : DriverState) (ops : List Op) :
    WatchdogCausedReset (runOps s ops) = WatchdogCausedReset s ∧
      (Service s).pr = s.pr ∧ (Service s).rlr = s.rlr ∧
      Service (Service s) = Service s ∧
      ServiceWrites = [(Reg.KR, 0xAAAA)] := by
  refine ⟨runOps_wdreset ops s, rfl, rfl, rfl, rfl⟩

end Watchdog
